import Mathlib

/-!
Verification development for the fantasy-draft assistant frontend
(`src/frontend/src/App.tsx`, second/updated revision of the app in that file).

The embedding below translates the Roster Projector (`findSlotForPlayer`,
`yourRoster`), the Ranking Engine (`rankPlayers` with its helper tables
`replacementRank`, `scoringWeights`, `MAX_BY_POSITION`, `STARTERS_ONLY`,
`priorityWeight`) and the two snake-draft helpers (`getUpcomingPickIndexes`)
into Lean.  JavaScript numbers are modelled by `ℚ` (the engine performs only
field arithmetic, `min`/`max` and comparisons), counts and indexes by `ℕ`,
missing optional fields (`?? d` defaults) by `Option`, and the JS `Set` of
taken ids by a `List String` used only through membership.
-/

/-- The six player positions of the app (`type Position` in the source). -/
inductive Position : Type
  | QB | RB | WR | TE | DST | K
  deriving DecidableEq, Repr

/-- Scoring mode (`"standard" | "half" | "ppr"` in the source). -/
inductive Scoring : Type
  | standard | half | ppr
  deriving DecidableEq, Repr

/-- The fields of `Player` that the roster projector and ranking engine read.
Optional (possibly `null`/`undefined`) fields are modelled with `Option`. -/
structure Player : Type where
  id : String
  name : String
  position : Position
  team : Option String := none
  bye : Option Int := none
  adp : Option ℚ := none
  proj_pts : Option ℚ := none
  qb_pass_att : Option ℚ := none
  qb_rush_share : Option ℚ := none
  deriving DecidableEq, Repr

/-- `DraftSettings` from the source. -/
structure DraftSettings : Type where
  leagueSize : ℕ
  draftSlot : ℕ
  rounds : ℕ
  scoring : Scoring
  teamQBInfluence : ℚ
  runSensitivity : ℚ
  deriving DecidableEq, Repr

/-- The roster slot categories (the string keys of the `yourRoster` record). -/
inductive Slot : Type
  | QB | RB | WR | TE | FLEX | DST | K | BENCH | IR
  deriving DecidableEq, Repr

/-- `ROSTER_TEMPLATE` constant of the source. -/
def ROSTER_TEMPLATE : Slot → ℕ
  | Slot.QB => 1
  | Slot.RB => 2
  | Slot.WR => 2
  | Slot.TE => 1
  | Slot.FLEX => 1
  | Slot.DST => 1
  | Slot.K => 1
  | Slot.BENCH => 7
  | Slot.IR => 1

/-- `FLEX_ELIGIBLE` constant of the source. -/
def FLEX_ELIGIBLE : List Position := [Position.RB, Position.WR, Position.TE]

/-- The `yourRoster` record: one ordered player list per slot category. -/
structure Roster : Type where
  qb : List Player := []
  rb : List Player := []
  wr : List Player := []
  te : List Player := []
  flex : List Player := []
  dst : List Player := []
  k : List Player := []
  bench : List Player := []
  ir : List Player := []
  deriving DecidableEq, Repr

/-- The list stored under a slot category key. -/
def slotList (r : Roster) : Slot → List Player
  | Slot.QB => r.qb
  | Slot.RB => r.rb
  | Slot.WR => r.wr
  | Slot.TE => r.te
  | Slot.FLEX => r.flex
  | Slot.DST => r.dst
  | Slot.K => r.k
  | Slot.BENCH => r.bench
  | Slot.IR => r.ir

/-- `by[slot].push(p)`: append a player to one slot category list. -/
def pushSlot (r : Roster) (s : Slot) (p : Player) : Roster :=
  match s with
  | Slot.QB => { r with qb := r.qb ++ [p] }
  | Slot.RB => { r with rb := r.rb ++ [p] }
  | Slot.WR => { r with wr := r.wr ++ [p] }
  | Slot.TE => { r with te := r.te ++ [p] }
  | Slot.FLEX => { r with flex := r.flex ++ [p] }
  | Slot.DST => { r with dst := r.dst ++ [p] }
  | Slot.K => { r with k := r.k ++ [p] }
  | Slot.BENCH => { r with bench := r.bench ++ [p] }
  | Slot.IR => { r with ir := r.ir ++ [p] }

/-- The all-empty roster the projector starts from. -/
def emptyRoster : Roster := {}

/-- `findSlotForPlayer` (the updated revision, which also checks the DST and K
starter slots).  `need(slot, count)` is inlined as a length comparison. -/
def findSlotForPlayer (p : Player) (r : Roster) : Slot :=
  if p.position = Position.QB ∧ r.qb.length < ROSTER_TEMPLATE Slot.QB then Slot.QB
  else if p.position = Position.RB ∧ r.rb.length < ROSTER_TEMPLATE Slot.RB then Slot.RB
  else if p.position = Position.WR ∧ r.wr.length < ROSTER_TEMPLATE Slot.WR then Slot.WR
  else if p.position = Position.TE ∧ r.te.length < ROSTER_TEMPLATE Slot.TE then Slot.TE
  else if p.position = Position.DST ∧ r.dst.length < ROSTER_TEMPLATE Slot.DST then Slot.DST
  else if p.position = Position.K ∧ r.k.length < ROSTER_TEMPLATE Slot.K then Slot.K
  else if p.position ∈ FLEX_ELIGIBLE ∧ r.flex.length < ROSTER_TEMPLATE Slot.FLEX then Slot.FLEX
  else Slot.BENCH

/-- `yourIds.map(id => players.find(p => p.id === id)).filter(Boolean)`:
resolve the self-owned pick ids against the catalog, dropping unknown ids. -/
def resolvePicks (players : List Player) (yourIds : List String) : List Player :=
  yourIds.filterMap (fun i => players.find? (fun p => p.id == i))

/-- One allocation step of the `yourRoster` loop. -/
def allocStep (r : Roster) (p : Player) : Roster :=
  pushSlot r (findSlotForPlayer p r) p

/-- `yourRoster`: replay the self-owned picks in log order through the greedy
slot assignment. -/
def yourRosterOf (players : List Player) (yourIds : List String) : Roster :=
  (resolvePicks players yourIds).foldl allocStep emptyRoster

/-- All slot categories, in the record-key order of the source. -/
def allSlots : List Slot :=
  [Slot.QB, Slot.RB, Slot.WR, Slot.TE, Slot.FLEX, Slot.DST, Slot.K, Slot.BENCH, Slot.IR]

/-- Concatenation of all slot category lists of a roster. -/
def allPlayers (r : Roster) : List Player :=
  r.qb ++ r.rb ++ r.wr ++ r.te ++ r.flex ++ r.dst ++ r.k ++ r.bench ++ r.ir

/-- Total number of players across all slot categories. -/
def totalRosterCount (r : Roster) : ℕ := (allPlayers r).length

/-- `Math.ceil(a / b)` for natural `a`, `b` (used with `b ≥ 1`). -/
def ceilDivNat (a b : ℕ) : ℕ := (a + b - 1) / b

/-- The drafter (1-based slot) who owns an overall pick number in a snake
draft, as computed inside the pick-by-pick scanning loop:
`round = ceil(pickIndex/leagueSize)`, `pickInRound = (pickIndex-1)%leagueSize+1`,
odd rounds run `1..N`, even rounds run `N..1`. -/
def drafterOf (ls : ℕ) (pickIndex : ℕ) : ℕ :=
  let round := ceilDivNat pickIndex ls
  let pickInRound := (pickIndex - 1) % ls + 1
  if round % 2 = 1 then pickInRound else ls - pickInRound + 1

/-- Loop body of the pick-by-pick scanning `getUpcomingPickIndexes`
(first revision, near the top of the source file): walk overall pick numbers
while fewer than `lookahead` picks are collected and the index is in range. -/
def upcoming1Go (ls slot lastPick lookahead : ℕ) (pickIndex collected : ℕ) : List ℕ :=
  if h : collected < lookahead ∧ pickIndex ≤ lastPick then
    if drafterOf ls pickIndex = slot then
      pickIndex :: upcoming1Go ls slot lastPick lookahead (pickIndex + 1) (collected + 1)
    else
      upcoming1Go ls slot lastPick lookahead (pickIndex + 1) collected
  else []
termination_by lastPick + 1 - pickIndex
decreasing_by all_goals omega

/-- The pick-by-pick scanning `getUpcomingPickIndexes` (first revision). -/
def getUpcomingPickIndexesScan (s : DraftSettings) (totalPicksMade lookahead : ℕ) : List ℕ :=
  upcoming1Go s.leagueSize s.draftSlot (s.rounds * s.leagueSize) lookahead (totalPicksMade + 1) 0

/-- The overall pick number belonging to draft slot `slot` in round `r`
(`myPickThisRound` of the round-by-round revision):
`firstOfRound + (slot-1)` in odd rounds, `firstOfRound + (leagueSize-slot)` in
even rounds. -/
def myPickOfRound (ls slot : ℕ) (r : ℕ) : ℕ :=
  let firstOfRound := (r - 1) * ls + 1
  if r % 2 = 1 then firstOfRound + (slot - 1) else firstOfRound + (ls - slot)

/-- Loop body of the round-by-round `getUpcomingPickIndexes` (second
revision): walk rounds to the end, pushing the slot's pick of each round when
it lies in `[startPick, lastPick]`, and break once `count` picks are held
(the length test happens after the push, exactly as in the source). -/
def upcoming2Go (ls slot startPick lastPick rounds count : ℕ) (r collected : ℕ) : List ℕ :=
  if h : r ≤ rounds then
    let myPick := myPickOfRound ls slot r
    if startPick ≤ myPick ∧ myPick ≤ lastPick then
      myPick ::
        (if count ≤ collected + 1 then []
         else upcoming2Go ls slot startPick lastPick rounds count (r + 1) (collected + 1))
    else upcoming2Go ls slot startPick lastPick rounds count (r + 1) collected
  else []
termination_by rounds + 1 - r
decreasing_by all_goals omega

/-- The round-by-round `getUpcomingPickIndexes` (second revision): start at
the round containing the pick on the clock. -/
def getUpcomingPickIndexesRounds (s : DraftSettings) (totalPicksMade count : ℕ) : List ℕ :=
  upcoming2Go s.leagueSize s.draftSlot (totalPicksMade + 1) (s.rounds * s.leagueSize)
    s.rounds count (ceilDivNat (totalPicksMade + 1) s.leagueSize) 0

/-- `replacementRank` table of the source. -/
def replacementRank : Position → ℕ
  | Position.QB => 12
  | Position.RB => 24
  | Position.WR => 30
  | Position.TE => 12
  | Position.DST => 12
  | Position.K => 12

/-- `scoringWeights` table of the source. -/
def scoringWeights : Scoring → Position → ℚ
  | Scoring.standard, Position.QB => 1
  | Scoring.standard, Position.RB => 105/100
  | Scoring.standard, Position.WR => 1
  | Scoring.standard, Position.TE => 1
  | Scoring.standard, Position.DST => 6/10
  | Scoring.standard, Position.K => 5/10
  | Scoring.half, Position.QB => 1
  | Scoring.half, Position.RB => 1
  | Scoring.half, Position.WR => 102/100
  | Scoring.half, Position.TE => 1
  | Scoring.half, Position.DST => 6/10
  | Scoring.half, Position.K => 5/10
  | Scoring.ppr, Position.QB => 1
  | Scoring.ppr, Position.RB => 98/100
  | Scoring.ppr, Position.WR => 105/100
  | Scoring.ppr, Position.TE => 103/100
  | Scoring.ppr, Position.DST => 6/10
  | Scoring.ppr, Position.K => 5/10

/-- `MAX_BY_POSITION` hard caps of the source (`undefined` = uncapped). -/
def MAX_BY_POSITION : Position → Option ℕ
  | Position.QB => some 1
  | Position.DST => some 1
  | Position.K => some 1
  | Position.TE => some 2
  | Position.RB => none
  | Position.WR => none

/-- `STARTERS_ONLY` table of the source (starter counts, no bench/flex). -/
def STARTERS_ONLY : Position → ℕ
  | Position.QB => ROSTER_TEMPLATE Slot.QB
  | Position.RB => ROSTER_TEMPLATE Slot.RB
  | Position.WR => ROSTER_TEMPLATE Slot.WR
  | Position.TE => ROSTER_TEMPLATE Slot.TE
  | Position.DST => ROSTER_TEMPLATE Slot.DST
  | Position.K => ROSTER_TEMPLATE Slot.K

/-- `evenShare` table inside `rankPlayers`. -/
def evenShare : Position → ℚ
  | Position.QB => 17/100
  | Position.RB => 27/100
  | Position.WR => 27/100
  | Position.TE => 1/10
  | Position.DST => 1/10
  | Position.K => 9/100

/-- `priorityWeight(pos, round)`: the early-round positional priority table. -/
def priorityWeight (pos : Position) (round : ℕ) : ℚ :=
  if round = 1 then
    if pos = Position.WR ∨ pos = Position.RB then 125/100
    else if pos = Position.QB then 5/100
    else if pos = Position.TE then 9/10
    else 5/100
  else if round = 2 then
    if pos = Position.WR ∨ pos = Position.RB then 12/10
    else if pos = Position.QB then 4/10
    else if pos = Position.TE then 95/100
    else 1/10
  else if 3 ≤ round ∧ round ≤ 5 then
    if pos = Position.WR ∨ pos = Position.RB then 115/100
    else if pos = Position.QB then 9/10
    else if pos = Position.TE then 1
    else 2/10
  else if 6 ≤ round ∧ round ≤ 9 then
    if pos = Position.WR ∨ pos = Position.RB then 105/100
    else if pos = Position.QB then 1
    else if pos = Position.TE then 1
    else 4/10
  else 1

/-- `p.proj_pts ?? 0`: the season projection with missing values read as 0. -/
def projPts (p : Player) : ℚ := p.proj_pts.getD 0

/-- The starter slot category keyed by a position name (`yourRoster[pos]`). -/
def starterSlotOf : Position → Slot
  | Position.QB => Slot.QB
  | Position.RB => Slot.RB
  | Position.WR => Slot.WR
  | Position.TE => Slot.TE
  | Position.DST => Slot.DST
  | Position.K => Slot.K

/-- The `ModelInputs` record the engine consumes. -/
structure ModelInputs : Type where
  settings : DraftSettings
  yourRoster : Roster
  takenIds : List String
  playerPool : List Player
  picksByPos : Position → ℕ

/-- `countOnRoster(pos)`: players at the position on the full roster,
including FLEX occupants for non-DST/K positions. -/
def countOnRoster (r : Roster) (pos : Position) : ℕ :=
  (slotList r (starterSlotOf pos)).length +
    (if pos ≠ Position.DST ∧ pos ≠ Position.K then
      (r.flex.filter (fun q => q.position == pos)).length
    else 0)

/-- `startersRemaining(pos) = max(0, need - have)` (ℕ subtraction truncates
at 0 exactly like the `Math.max(0, ...)`). -/
def startersRemaining (r : Roster) (pos : Position) : ℕ :=
  STARTERS_ONLY pos - (slotList r (starterSlotOf pos)).length

/-- `flexOpen = max(0, ROSTER_TEMPLATE.FLEX - flex.length)`. -/
def flexOpenOf (r : Roster) : ℕ := ROSTER_TEMPLATE Slot.FLEX - r.flex.length

/-- The roster players counted for bye diversification at a position:
the position's starter list plus, for non-DST/K, the FLEX occupants at
that position (the list `byeCounts` is built from). -/
def byeListFor (r : Roster) (pos : Position) : List Player :=
  slotList r (starterSlotOf pos) ++
    (if pos ≠ Position.DST ∧ pos ≠ Position.K then
      r.flex.filter (fun q => q.position == pos)
    else [])

/-- `byeCounts[pos][key]`: the source keys this map by `String(bye ?? "")`;
since distinct integer byes have distinct decimal strings and the
missing-bye key `""` differs from every number string, the string-keyed
lookup is modelled by counting equal `Option Int` byes directly. -/
def byeCountOf (r : Roster) (pos : Position) (b : Option Int) : ℕ :=
  (byeListFor r pos).countP (fun q => q.bye == b)

/-- The untaken players at a position, sorted descending by projection
(the `byPos` groups; `Array.prototype.sort` is stable, as is `mergeSort`). -/
def positionGroup (pool : List Player) (taken : List String) (pos : Position) : List Player :=
  ((pool.filter (fun p => !(p.id ∈ taken : Bool))).filter (fun p => p.position == pos)).mergeSort
    (fun a b => projPts b ≤ projPts a)

/-- `replacementValue[pos]`: the projection of the group element at index
`min(replacementRank-1, length-1)` when that index is nonnegative, else 0. -/
def replacementValue (pool : List Player) (taken : List String) (pos : Position) : ℚ :=
  let g := positionGroup pool taken pos
  let idx : ℤ := min ((replacementRank pos : ℤ) - 1) ((g.length : ℤ) - 1)
  if 0 ≤ idx then ((g.get? idx.toNat).bind Player.proj_pts).getD 0 else 0

/-- `vor = (p.proj_pts ?? 0) - (replacementValue[pos] || 0)` (`|| 0` is the
identity on an already-numeric value). -/
def vorOf (pool : List Player) (taken : List String) (p : Player) : ℚ :=
  projPts p - replacementValue pool taken p.position

/-- `totalTaken = sum(picksByPos) || 1` (a zero sum becomes 1). -/
def totalTakenOf (picks : Position → ℕ) : ℕ :=
  let s := picks Position.QB + picks Position.RB + picks Position.WR + picks Position.TE +
    picks Position.DST + picks Position.K
  if s = 0 then 1 else s

/-- `runBias[pos] = runSensitivity * (actualShare - evenShare)`. -/
def runBiasOf (s : DraftSettings) (picks : Position → ℕ) (pos : Position) : ℚ :=
  s.runSensitivity * ((picks pos : ℚ) / (totalTakenOf picks : ℚ) - evenShare pos)

/-- `totalPicksMade = sum(picksByPos)` (without the `|| 1`). -/
def totalPicksMadeOf (picks : Position → ℕ) : ℕ :=
  picks Position.QB + picks Position.RB + picks Position.WR + picks Position.TE +
    picks Position.DST + picks Position.K

/-- `currentRound = max(1, ceil((totalPicksMade + 1) / leagueSize))`. -/
def currentRoundOf (s : DraftSettings) (picks : Position → ℕ) : ℕ :=
  max 1 (ceilDivNat (totalPicksMadeOf picks + 1) s.leagueSize)

/-- The WR/TE quarterback-context adjustment (`qbAdj`). -/
def qbAdjOf (s : DraftSettings) (p : Player) : ℚ :=
  if (p.position = Position.WR ∨ p.position = Position.TE) ∧ 0 < s.teamQBInfluence then
    let passAtt := p.qb_pass_att.getD 550
    let qbRun := min (max (p.qb_rush_share.getD (2/10)) 0) (8/10)
    s.teamQBInfluence * ((passAtt - 520) * (2/100) + (3/10 - qbRun) * 20)
  else 0

/-- `fractionalFlex`: remaining FLEX capacity divided by 3 for flex-eligible
positions with open FLEX, else 0. -/
def fractionalFlexOf (r : Roster) (pos : Position) : ℚ :=
  if pos ∈ FLEX_ELIGIBLE ∧ 0 < flexOpenOf r then
    (flexOpenOf r : ℚ) / (FLEX_ELIGIBLE.length : ℚ)
  else 0

/-- `needUnits = startersLeft + fractionalFlex`. -/
def needUnitsOf (r : Roster) (pos : Position) : ℚ :=
  (startersRemaining r pos : ℚ) + fractionalFlexOf r pos

/-- `starterBoost = startersLeft > 0 ? 1.35 : 1.0`. -/
def starterBoostOf (r : Roster) (pos : Position) : ℚ :=
  if 0 < startersRemaining r pos then 135/100 else 1

/-- `benchDamp = startersLeft === 0 ? 0.93 : 1.0`. -/
def benchDampOf (r : Roster) (pos : Position) : ℚ :=
  if startersRemaining r pos = 0 then 93/100 else 1

/-- `pivotBonus = 1 + max(0, 0.15 - max(0, runBias[pos]))`. -/
def pivotBonusOf (s : DraftSettings) (picks : Position → ℕ) (pos : Position) : ℚ :=
  1 + max 0 (15/100 - max 0 (runBiasOf s picks pos))

/-- `adpHelp = p.adp ? max(0, (100 - adp) * 0.01) : 0`.  JS truthiness: an
`adp` of 0 (like a missing one) takes the `: 0` branch. -/
def adpHelpOf (p : Player) : ℚ :=
  match p.adp with
  | some a => if a = 0 then 0 else max 0 ((100 - a) * (1/100))
  | none => 0

/-- The bye diversification multiplier (`byeAdj`). -/
def byeAdjOf (r : Roster) (p : Player) : ℚ :=
  match p.bye with
  | some w =>
      let already := byeCountOf r p.position (some w)
      if 2 ≤ already then 94/100 else if already = 1 then 98/100 else 1
  | none => 1

/-- `base = (p.proj_pts ?? 0) * (weights[pos] || 1.0)` (no weight is 0, so
`|| 1.0` is the identity). -/
def baseOf (s : DraftSettings) (p : Player) : ℚ :=
  projPts p * scoringWeights s.scoring p.position

/-- `score = base + vor * 1.4 + qbAdj`. -/
def scoreCoreOf (I : ModelInputs) (p : Player) : ℚ :=
  baseOf I.settings p + vorOf I.playerPool I.takenIds p * (14/10) + qbAdjOf I.settings p

/-- `finalScore`: the full multiplicative stack plus the additive ADP help. -/
def scoreOf (I : ModelInputs) (p : Player) : ℚ :=
  scoreCoreOf I p *
      (1 + (18/100) * min 2 (needUnitsOf I.yourRoster p.position)) *
      starterBoostOf I.yourRoster p.position *
      benchDampOf I.yourRoster p.position *
      pivotBonusOf I.settings I.picksByPos p.position *
      priorityWeight p.position (currentRoundOf I.settings I.picksByPos) *
      byeAdjOf I.yourRoster p +
    adpHelpOf p

/-- Left-pad a digit string with zeros to the requested width. -/
def padLeftZeros (s : String) (width : ℕ) : String :=
  String.mk (List.replicate (width - s.length) '0') ++ s

/-- `toFixed(f)` for a nonnegative rational: round to `f` decimals picking
the larger integer on ties, then print with exactly `f` fraction digits. -/
def jsToFixedNN (f : ℕ) (q : ℚ) : String :=
  let m := (⌊q * (10 : ℚ) ^ f + 1/2⌋).toNat
  toString (m / 10 ^ f) ++ "." ++ padLeftZeros (toString (m % 10 ^ f)) f

/-- `Number.prototype.toFixed(f)`: negative values print a sign before the
formatted absolute value. -/
def jsToFixed (f : ℕ) (q : ℚ) : String :=
  if q < 0 then "-" ++ jsToFixedNN f (-q) else jsToFixedNN f q

/-- The human-readable score breakdown string (`explain`). -/
def explainOf (I : ModelInputs) (p : Player) : String :=
  "base=" ++ jsToFixed 1 (baseOf I.settings p) ++
  " vor=" ++ jsToFixed 1 (vorOf I.playerPool I.takenIds p) ++
  " qbAdj=" ++ jsToFixed 1 (qbAdjOf I.settings p) ++
  " starterBoost=" ++ jsToFixed 2 (starterBoostOf I.yourRoster p.position) ++
  " prio=" ++ jsToFixed 2 (priorityWeight p.position (currentRoundOf I.settings I.picksByPos)) ++
  " pivot=" ++ jsToFixed 2 (pivotBonusOf I.settings I.picksByPos p.position) ++
  " byeAdj=" ++ jsToFixed 2 (byeAdjOf I.yourRoster p) ++
  " adpHelp=" ++ jsToFixed 2 (adpHelpOf p)

/-- One entry of the engine output. -/
structure Scored : Type where
  player : Player
  score : ℚ
  explain : String
  deriving DecidableEq, Repr

/-- The hard-cap test: `cap !== undefined && countOnRoster(pos) >= cap`. -/
def atCap (r : Roster) (pos : Position) : Bool :=
  match MAX_BY_POSITION pos with
  | some cap => decide (cap ≤ countOnRoster r pos)
  | none => false

/-- The scored entry built for one untaken, below-cap pool player. -/
def mkScored (I : ModelInputs) (p : Player) : Scored :=
  { player := p, score := scoreOf I p, explain := explainOf I p }

/-- The `scored` array: one entry per pool player, skipping taken players
and players whose position has reached its hard cap. -/
def scoredList (I : ModelInputs) : List Scored :=
  I.playerPool.filterMap (fun p =>
    if p.id ∈ I.takenIds then none
    else if atCap I.yourRoster p.position then none
    else some (mkScored I p))

/-- `rankPlayers`: the scored entries sorted descending by score (stable). -/
def rankPlayers (I : ModelInputs) : List Scored :=
  (scoredList I).mergeSort (fun a b => b.score ≤ a.score)

/-- Default settings of the app (`useState` initial value / server defaults). -/
def defaultSettings : DraftSettings :=
  { leagueSize := 12, draftSlot := 6, rounds := 16, scoring := Scoring.ppr,
    teamQBInfluence := 6/10, runSensitivity := 1 }

lemma mem_scoredList_iff {I : ModelInputs} {s : Scored} :
    s ∈ scoredList I ↔
      ∃ p ∈ I.playerPool, p.id ∉ I.takenIds ∧ atCap I.yourRoster p.position = false ∧
        s = mkScored I p := by
  simp only [scoredList, List.mem_filterMap]
  constructor
  · rintro ⟨p, hp, hf⟩
    by_cases h1 : p.id ∈ I.takenIds
    · simp [h1] at hf
    · by_cases h2 : atCap I.yourRoster p.position
      · simp [h1, h2] at hf
      · simp only [h1, if_false, h2, if_neg, Bool.false_eq_true, if_false, Option.some.injEq] at hf
        exact ⟨p, hp, h1, by simp [h2], hf.symm⟩
  · rintro ⟨p, hp, h1, h2, rfl⟩
    exact ⟨p, hp, by simp [h1, h2]⟩

lemma mem_rankPlayers_iff {I : ModelInputs} {s : Scored} :
    s ∈ rankPlayers I ↔ s ∈ scoredList I :=
  (List.mergeSort_perm (scoredList I) _).mem_iff

/-- Claim C2: a catalog player appears in the ranking output exactly when the
player is untaken and the self-owner's count at the player's position is
strictly below the position's hard cap (QB 1, DST 1, K 1, TE 2; RB and WR
uncapped); taken and at-cap players are excluded entirely. -/
theorem C2_theorem (I : ModelInputs) (p : Player) (hp : p ∈ I.playerPool) :
    (∃ s ∈ rankPlayers I, s.player = p) ↔
      (p.id ∉ I.takenIds ∧
        ∀ cap, MAX_BY_POSITION p.position = some cap →
          countOnRoster I.yourRoster p.position < cap) := by
  constructor
  · rintro ⟨s, hs, hsp⟩
    obtain ⟨q, _, h1, h2, rfl⟩ := mem_scoredList_iff.mp (mem_rankPlayers_iff.mp hs)
    have hq : q = p := hsp
    subst hq
    refine ⟨h1, fun cap hcap => ?_⟩
    unfold atCap at h2
    rw [hcap] at h2
    simpa using h2
  · rintro ⟨h1, h2⟩
    refine ⟨mkScored I p, mem_rankPlayers_iff.mpr (mem_scoredList_iff.mpr ⟨p, hp, h1, ?_, rfl⟩), rfl⟩
    unfold atCap
    cases hM : MAX_BY_POSITION p.position with
    | none => rfl
    | some cap => simpa using Nat.not_le.mpr (h2 cap hM)

/-- Claim C2 witness: a concrete query with one taken QB, one at-cap QB and
one available RB. -/
theorem C2_witness :
    (({ id := "r1", name := "R1", position := Position.RB, proj_pts := some 100 } : Player)
        ∈ [({ id := "q9", name := "Q9", position := Position.QB, proj_pts := some 90 } : Player),
           { id := "r1", name := "R1", position := Position.RB, proj_pts := some 100 }]) ∧
      (∃ s ∈ rankPlayers
          { settings := defaultSettings,
            yourRoster := { qb := [{ id := "q0", name := "Q0", position := Position.QB }] },
            takenIds := ["q0"],
            playerPool := [{ id := "q9", name := "Q9", position := Position.QB, proj_pts := some 90 },
              { id := "r1", name := "R1", position := Position.RB, proj_pts := some 100 }],
            picksByPos := fun pos => if pos = Position.QB then 1 else 0 },
        s.player = { id := "r1", name := "R1", position := Position.RB, proj_pts := some 100 }) := by
  refine ⟨by decide, ?_⟩
  refine (C2_theorem _ _ (by decide)).mpr ⟨by decide, ?_⟩
  intro cap hcap
  simp only [MAX_BY_POSITION] at hcap
  cases hcap


/-- Modelled from the words of claim C3: an ADP bonus paid to every player
that has an ADP value (`max(0, (100 - adp) * 0.01)`), with no exception for
an ADP equal to 0.  Used only to compare the claim against the engine. -/
def claimedAdpBonus (p : Player) : ℚ :=
  match p.adp with
  | some a => max 0 ((100 - a) * (1/100))
  | none => 0

/-- The player exhibiting the ADP-0 divergence of claim C3. -/
def C3cexPlayer : Player :=
  { id := "w0", name := "W0", position := Position.WR, adp := some 0 }

/-- A ranking query over a one-player catalog whose only player has ADP 0. -/
def C3cexInputs : ModelInputs :=
  { settings := { defaultSettings with teamQBInfluence := 0 },
    yourRoster := emptyRoster,
    takenIds := [],
    playerPool := [C3cexPlayer],
    picksByPos := fun _ => 0 }

/-- Claim C3 counterexample: for the untaken, below-cap player with
`adp = 0` the engine reports final score 0 (JS `p.adp ?` treats 0 as falsy,
so no ADP bonus is paid), while the claim's formula — identical except for
its ADP-bonus term — yields `max(0, (100-0)*0.01) = 1`. -/
theorem C3_counterexample :
    (rankPlayers C3cexInputs).map Scored.score = [0] ∧
      claimedAdpBonus C3cexPlayer = 1 ∧
      scoreOf C3cexInputs C3cexPlayer - adpHelpOf C3cexPlayer + claimedAdpBonus C3cexPlayer = 1 := by
  have hscore : scoreOf C3cexInputs C3cexPlayer = 0 := by
    simp [scoreOf, scoreCoreOf, baseOf, vorOf, qbAdjOf, adpHelpOf, projPts,
      replacementValue, positionGroup, C3cexInputs, C3cexPlayer, defaultSettings,
      List.mergeSort_singleton]
  refine ⟨?_, ?_, ?_⟩
  · have : (rankPlayers C3cexInputs).map Scored.score = [scoreOf C3cexInputs C3cexPlayer] := by
      simp [rankPlayers, scoredList, C3cexInputs, atCap, MAX_BY_POSITION, C3cexPlayer,
        List.mergeSort_singleton, mkScored]
    rw [this, hscore]
  · simp [claimedAdpBonus, C3cexPlayer]
  · rw [hscore]
    simp [adpHelpOf, claimedAdpBonus, C3cexPlayer]

/-- Claim C3 (amended): for every untaken, below-cap pool player the reported
final score equals
`(base + VOR*1.4 + qbAdj) * (1 + 0.18*min(2, usefulSlots)) * starterBoost *
benchDamp * pivotBonus * roundPriority * byeAdjustment + adpBonus`, with
`base = projectedPoints * scoringWeight`, `starterBoost = 1.35` exactly when
starters remain at the position, `benchDamp = 0.93` exactly when none do,
`pivotBonus = 1 + max(0, 0.15 - max(0, runBias))`,
`runBias = runSensitivity * (actualShare - expectedShare)` with a zero pick
total read as one, and — the amendment — the ADP bonus
`max(0, (100 - adp) * 0.01)` paid only for a present and nonzero ADP. -/
theorem C3_theorem (I : ModelInputs) (p : Player) (hp : p ∈ I.playerPool)
    (h1 : p.id ∉ I.takenIds)
    (h2 : ∀ cap, MAX_BY_POSITION p.position = some cap →
      countOnRoster I.yourRoster p.position < cap) :
    ∃ s ∈ rankPlayers I, s.player = p ∧
      s.score =
        (projPts p * scoringWeights I.settings.scoring p.position
            + vorOf I.playerPool I.takenIds p * (14/10) + qbAdjOf I.settings p)
          * (1 + (18/100) * min 2 ((startersRemaining I.yourRoster p.position : ℚ)
              + fractionalFlexOf I.yourRoster p.position))
          * (if 0 < startersRemaining I.yourRoster p.position then 135/100 else 1)
          * (if startersRemaining I.yourRoster p.position = 0 then 93/100 else 1)
          * (1 + max 0 (15/100 - max 0 (runBiasOf I.settings I.picksByPos p.position)))
          * priorityWeight p.position (currentRoundOf I.settings I.picksByPos)
          * byeAdjOf I.yourRoster p
        + adpHelpOf p ∧
      runBiasOf I.settings I.picksByPos p.position =
        I.settings.runSensitivity *
          ((I.picksByPos p.position : ℚ) / (totalTakenOf I.picksByPos : ℚ)
            - evenShare p.position) ∧
      (totalPicksMadeOf I.picksByPos = 0 → totalTakenOf I.picksByPos = 1) ∧
      adpHelpOf p =
        (match p.adp with
          | some a => if a = 0 then 0 else max 0 ((100 - a) * (1/100))
          | none => 0) := by
  have hcap : atCap I.yourRoster p.position = false := by
    unfold atCap
    cases hM : MAX_BY_POSITION p.position with
    | none => rfl
    | some cap => simpa using Nat.not_le.mpr (h2 cap hM)
  refine ⟨mkScored I p, mem_rankPlayers_iff.mpr (mem_scoredList_iff.mpr ⟨p, hp, h1, hcap, rfl⟩),
    rfl, ?_, rfl, ?_, rfl⟩
  · simp only [mkScored, scoreOf, scoreCoreOf, baseOf, needUnitsOf, starterBoostOf,
      benchDampOf, pivotBonusOf]
  · intro h0
    unfold totalTakenOf
    unfold totalPicksMadeOf at h0
    simp [h0]

/-- Claim C3 witness: the amended score equation instantiated on a concrete
untaken, below-cap wide receiver. -/
theorem C3_witness :
    ∃ s ∈ rankPlayers C3cexInputs, s.player = C3cexPlayer ∧
      s.score =
        (projPts C3cexPlayer * scoringWeights C3cexInputs.settings.scoring C3cexPlayer.position
            + vorOf C3cexInputs.playerPool C3cexInputs.takenIds C3cexPlayer * (14/10)
            + qbAdjOf C3cexInputs.settings C3cexPlayer)
          * (1 + (18/100) * min 2 ((startersRemaining C3cexInputs.yourRoster C3cexPlayer.position : ℚ)
              + fractionalFlexOf C3cexInputs.yourRoster C3cexPlayer.position))
          * (if 0 < startersRemaining C3cexInputs.yourRoster C3cexPlayer.position then 135/100 else 1)
          * (if startersRemaining C3cexInputs.yourRoster C3cexPlayer.position = 0 then 93/100 else 1)
          * (1 + max 0 (15/100 - max 0 (runBiasOf C3cexInputs.settings C3cexInputs.picksByPos C3cexPlayer.position)))
          * priorityWeight C3cexPlayer.position (currentRoundOf C3cexInputs.settings C3cexInputs.picksByPos)
          * byeAdjOf C3cexInputs.yourRoster C3cexPlayer
        + adpHelpOf C3cexPlayer ∧
      runBiasOf C3cexInputs.settings C3cexInputs.picksByPos C3cexPlayer.position =
        C3cexInputs.settings.runSensitivity *
          ((C3cexInputs.picksByPos C3cexPlayer.position : ℚ)
              / (totalTakenOf C3cexInputs.picksByPos : ℚ)
            - evenShare C3cexPlayer.position) ∧
      (totalPicksMadeOf C3cexInputs.picksByPos = 0 → totalTakenOf C3cexInputs.picksByPos = 1) ∧
      adpHelpOf C3cexPlayer =
        (match C3cexPlayer.adp with
          | some a => if a = 0 then 0 else max 0 ((100 - a) * (1/100))
          | none => 0) := by
  refine C3_theorem C3cexInputs C3cexPlayer (by simp [C3cexInputs]) (by simp [C3cexInputs]) ?_
  intro cap hcap
  simp only [C3cexPlayer, MAX_BY_POSITION] at hcap
  cases hcap


lemma mem_positionGroup_position {pool : List Player} {taken : List String} {pos : Position}
    {q : Player} (hq : q ∈ positionGroup pool taken pos) : q.position = pos := by
  unfold positionGroup at hq
  have hq' := (List.mergeSort_perm _ _).mem_iff.mp hq
  have := (List.mem_filter.mp hq').2
  simpa using this

/-- Claim C1 (amended): the engine's replacement value at a position is the
projection of the player at the fixed replacement rank — or of the
lowest-ranked player when the group is shorter, or 0 when it is empty —
of the **untaken** catalog players at that position sorted descending by
projection (the engine drops taken players before building the baseline,
contrary to the claim's "all catalog players"); every player's VOR is their
projection minus their position's replacement value, so the group element at
the replacement index has VOR exactly 0. -/
theorem C1_theorem (pool : List Player) (taken : List String) (pos : Position) :
    (positionGroup pool taken pos = [] → replacementValue pool taken pos = 0) ∧
    (∀ p : Player, vorOf pool taken p = projPts p - replacementValue pool taken p.position) ∧
    (positionGroup pool taken pos ≠ [] →
      ∃ q, (positionGroup pool taken pos).get?
          (min (replacementRank pos - 1) ((positionGroup pool taken pos).length - 1)) = some q ∧
        replacementValue pool taken pos = projPts q ∧
        vorOf pool taken q = 0) := by
  have hrank : 1 ≤ replacementRank pos := by cases pos <;> simp [replacementRank]
  refine ⟨?_, fun p => rfl, ?_⟩
  · intro h
    simp only [replacementValue, h]
    rw [if_neg (by simp)]
  · intro hne
    have hlen : 1 ≤ (positionGroup pool taken pos).length := List.length_pos.mpr hne
    have hidx : min (replacementRank pos - 1) ((positionGroup pool taken pos).length - 1) <
        (positionGroup pool taken pos).length := by omega
    have hget : (positionGroup pool taken pos).get?
        (min (replacementRank pos - 1) ((positionGroup pool taken pos).length - 1)) =
          some ((positionGroup pool taken pos).get ⟨_, hidx⟩) := List.get?_eq_get hidx
    have hz : min ((replacementRank pos : ℤ) - 1) (((positionGroup pool taken pos).length : ℤ) - 1)
        = ((min (replacementRank pos - 1) ((positionGroup pool taken pos).length - 1) : ℕ) : ℤ) := by
      omega
    have hrv : replacementValue pool taken pos =
        projPts ((positionGroup pool taken pos).get ⟨_, hidx⟩) := by
      simp only [replacementValue]
      rw [hz, if_pos (Int.natCast_nonneg _), Int.toNat_natCast, hget]
      simp [projPts]
    have hposq : ((positionGroup pool taken pos).get ⟨_, hidx⟩).position = pos :=
      mem_positionGroup_position (List.get_mem _ _ hidx)
    refine ⟨(positionGroup pool taken pos).get ⟨_, hidx⟩, hget, hrv, ?_⟩
    unfold vorOf
    rw [hposq, hrv]
    ring

/-- The higher-projected quarterback of the C1 counterexample catalog. -/
def C1q1 : Player := { id := "q1", name := "Q1", position := Position.QB, proj_pts := some 100 }

/-- The lower-projected quarterback, marked taken in the counterexample. -/
def C1q2 : Player := { id := "q2", name := "Q2", position := Position.QB, proj_pts := some 50 }

/-- Catalog for the C1 counterexample. -/
def C1pool : List Player := [C1q1, C1q2]

/-- Modelled from the words of claim C1: the replacement value computed over
**all** catalog players at the position (no taken filter), sorted descending
by projection, indexed at `min(replacementRank-1, length-1)`.  Used only to
compare the claim against the engine. -/
def replacementValueAllCatalog (pool : List Player) (pos : Position) : ℚ :=
  let g := (pool.filter (fun p => p.position == pos)).mergeSort (fun a b => projPts b ≤ projPts a)
  let idx : ℤ := min ((replacementRank pos : ℤ) - 1) ((g.length : ℤ) - 1)
  if 0 ≤ idx then ((g.get? idx.toNat).bind Player.proj_pts).getD 0 else 0

/-- Claim C1 counterexample: with catalog QBs projecting 100 and 50 and the
50-point QB already taken, the engine's replacement value is 100 (computed
over untaken players only), not the 50 of the claim's all-catalog reading;
accordingly the engine reports VOR 0 for the 100-point QB where the claim's
reading would report 50. -/
theorem C1_counterexample :
    replacementValue C1pool ["q2"] Position.QB = 100 ∧
    replacementValueAllCatalog C1pool Position.QB = 50 ∧
    vorOf C1pool ["q2"] C1q1 = 0 ∧
    projPts C1q1 - replacementValueAllCatalog C1pool Position.QB = 50 := by
  have h1 : replacementValue C1pool ["q2"] Position.QB = 100 := by
    simp [replacementValue, positionGroup, C1pool, C1q1, C1q2, List.mergeSort_singleton, projPts,
      replacementRank]
  have hsorted : (C1pool.filter (fun p => p.position == Position.QB)).mergeSort
      (fun a b => projPts b ≤ projPts a) = C1pool.filter (fun p => p.position == Position.QB) := by
    apply List.mergeSort_of_sorted
    simp [C1pool, C1q1, C1q2, projPts]
    norm_num
  have h2 : replacementValueAllCatalog C1pool Position.QB = 50 := by
    simp only [replacementValueAllCatalog, hsorted]
    norm_num [C1pool, C1q1, C1q2, projPts, replacementRank]
  refine ⟨h1, h2, ?_, ?_⟩
  · unfold vorOf
    simp [h1, C1q1, projPts]
  · rw [h2]
    norm_num [C1q1, projPts]

/-- Claim C1 witness: the amended statement instantiated on a one-QB catalog
with nobody taken — the group is the singleton, the replacement value is its
projection, and its VOR is 0. -/
theorem C1_witness :
    ∃ q, (positionGroup [C1q1] [] Position.QB).get?
        (min (replacementRank Position.QB - 1) ((positionGroup [C1q1] [] Position.QB).length - 1)) =
          some q ∧
      replacementValue [C1q1] [] Position.QB = projPts q ∧
      vorOf [C1q1] [] q = 0 :=
  (C1_theorem [C1q1] [] Position.QB).2.2
    (by simp [positionGroup, C1q1, List.mergeSort_singleton])

/-- Claim C7: for a candidate with a known bye week the multiplier is 0.94
when at least two already-rostered players at the candidate's position
(including FLEX occupants) share that bye, 0.98 when exactly one does, and
1.0 when none do or the bye is unknown.  Stated for rosters whose FLEX slot
holds only flex-eligible players, which is every roster the projector can
produce (the source skips the FLEX scan for DST/K candidates). -/
theorem C7_theorem (r : Roster) (p : Player)
    (hflex : ∀ q ∈ r.flex, q.position ∈ FLEX_ELIGIBLE) :
    (p.bye = none → byeAdjOf r p = 1) ∧
    (∀ w : Int, p.bye = some w →
      byeAdjOf r p =
        (if 2 ≤ ((slotList r (starterSlotOf p.position) ++
              r.flex.filter (fun q => q.position == p.position)).countP
                (fun q => q.bye == some w)) then 94/100
         else if ((slotList r (starterSlotOf p.position) ++
              r.flex.filter (fun q => q.position == p.position)).countP
                (fun q => q.bye == some w)) = 1 then 98/100
         else 1)) := by
  have hfil : ∀ pos : Position, (pos = Position.DST ∨ pos = Position.K) →
      r.flex.filter (fun q => q.position == pos) = [] := by
    intro pos hp
    rw [List.filter_eq_nil_iff]
    intro q hq
    have hm := hflex q hq
    simp only [beq_iff_eq]
    intro hqp
    rw [hqp] at hm
    rcases hp with h | h <;> subst h <;> simp [FLEX_ELIGIBLE] at hm
  constructor
  · intro h
    simp [byeAdjOf, h]
  · intro w hw
    simp only [byeAdjOf, hw]
    unfold byeCountOf byeListFor
    by_cases hD : p.position = Position.DST ∨ p.position = Position.K
    · have hnot : ¬(p.position ≠ Position.DST ∧ p.position ≠ Position.K) := by tauto
      rw [if_neg hnot, hfil _ hD]
    · push_neg at hD
      rw [if_pos hD]

/-- Roster of the C7 witness: one rostered WR with bye week 7. -/
def C7roster : Roster :=
  { wr := [{ id := "w1", name := "W1", position := Position.WR, bye := some 7 }] }

/-- Candidate of the C7 witness: a WR sharing bye week 7. -/
def C7cand : Player := { id := "w2", name := "W2", position := Position.WR, bye := some 7 }

/-- Claim C7 witness: exactly one same-position, same-bye rostered player
yields the 0.98 multiplier. -/
theorem C7_witness : byeAdjOf C7roster C7cand = 98/100 := by
  have h := (C7_theorem C7roster C7cand (by simp [C7roster])).2 7 rfl
  rw [h]
  simp [C7roster, C7cand, slotList, starterSlotOf]

/-- Claim C8: the quarterback-context adjustment is 0 for non-receivers and
when the influence coefficient is 0; for WR/TE with a positive coefficient
it equals `coeff * ((passAtt - 520) * 0.02 + (0.3 - clamp(rushShare)) * 20)`
with defaults 550 and 0.2 and the rush share clamped to [0, 0.8]; it is
nondecreasing in pass attempts and nonincreasing in rush share. -/
theorem C8_theorem (s : DraftSettings) (p : Player) :
    (¬(p.position = Position.WR ∨ p.position = Position.TE) → qbAdjOf s p = 0) ∧
    (s.teamQBInfluence = 0 → qbAdjOf s p = 0) ∧
    ((p.position = Position.WR ∨ p.position = Position.TE) → 0 < s.teamQBInfluence →
      qbAdjOf s p = s.teamQBInfluence *
        ((p.qb_pass_att.getD 550 - 520) * (2/100)
          + (3/10 - min (max (p.qb_rush_share.getD (2/10)) 0) (8/10)) * 20)) ∧
    (∀ a1 a2 : ℚ, a1 ≤ a2 →
      qbAdjOf s { p with qb_pass_att := some a1 } ≤ qbAdjOf s { p with qb_pass_att := some a2 }) ∧
    (∀ r1 r2 : ℚ, r1 ≤ r2 →
      qbAdjOf s { p with qb_rush_share := some r2 } ≤ qbAdjOf s { p with qb_rush_share := some r1 }) := by
  refine ⟨?_, ?_, ?_, ?_, ?_⟩
  · intro h
    rw [qbAdjOf, if_neg (by tauto)]
  · intro h
    rw [qbAdjOf, if_neg (by simp [h])]
  · intro h1 h2
    rw [qbAdjOf, if_pos ⟨h1, h2⟩]
  · intro a1 a2 ha
    by_cases hc : (p.position = Position.WR ∨ p.position = Position.TE) ∧ 0 < s.teamQBInfluence
    · rw [qbAdjOf, qbAdjOf, if_pos (by exact hc), if_pos (by exact hc)]
      simp only [Option.getD_some]
      apply mul_le_mul_of_nonneg_left _ (le_of_lt hc.2)
      linarith
    · rw [qbAdjOf, qbAdjOf, if_neg (by exact hc), if_neg (by exact hc)]
  · intro r1 r2 hr
    by_cases hc : (p.position = Position.WR ∨ p.position = Position.TE) ∧ 0 < s.teamQBInfluence
    · rw [qbAdjOf, qbAdjOf, if_pos (by exact hc), if_pos (by exact hc)]
      simp only [Option.getD_some]
      apply mul_le_mul_of_nonneg_left _ (le_of_lt hc.2)
      have hm : min (max r1 0) (8/10) ≤ min (max r2 0) (8/10) :=
        min_le_min (max_le_max hr le_rfl) le_rfl
      linarith
    · rw [qbAdjOf, qbAdjOf, if_neg (by exact hc), if_neg (by exact hc)]

/-- WR used by the C8 witness. -/
def C8wr : Player :=
  { id := "w8", name := "W8", position := Position.WR,
    qb_pass_att := some 560, qb_rush_share := some (1/10) }

/-- Claim C8 witness: monotonicity in pass attempts instantiated at 500 and
600 attempts under the default settings. -/
theorem C8_witness :
    qbAdjOf defaultSettings { C8wr with qb_pass_att := some 500 } ≤
      qbAdjOf defaultSettings { C8wr with qb_pass_att := some 600 } :=
  (C8_theorem defaultSettings C8wr).2.2.2.1 500 600 (by norm_num)

/-- Claim C9: the ranking engine is a pure, deterministic function of the
catalog, the taken-id set (used only through membership), the self roster,
the positional counts and the settings — equal inputs yield identical
output lists, players, scores and breakdown strings alike. -/
theorem C9_theorem (se : DraftSettings) (r : Roster) (t1 t2 : List String)
    (pool : List Player) (picks : Position → ℕ)
    (h : ∀ x : String, x ∈ t1 ↔ x ∈ t2) :
    rankPlayers ⟨se, r, t1, pool, picks⟩ = rankPlayers ⟨se, r, t2, pool, picks⟩ := by
  have hpg : ∀ pos, positionGroup pool t1 pos = positionGroup pool t2 pos := by
    intro pos
    unfold positionGroup
    congr 1
    apply congrArg
    apply List.filter_congr
    intro y _
    exact congrArg Bool.not (decide_eq_decide.mpr (h y.id))
  have hvor : ∀ p, vorOf pool t1 p = vorOf pool t2 p := by
    intro p
    unfold vorOf replacementValue
    rw [hpg]
  have hscore : ∀ p : Player,
      scoreOf ⟨se, r, t1, pool, picks⟩ p = scoreOf ⟨se, r, t2, pool, picks⟩ p := by
    intro p
    simp only [scoreOf, scoreCoreOf]
    rw [hvor]
  have hexp : ∀ p : Player,
      explainOf ⟨se, r, t1, pool, picks⟩ p = explainOf ⟨se, r, t2, pool, picks⟩ p := by
    intro p
    simp only [explainOf]
    rw [hvor]
  have hmk : ∀ p : Player,
      mkScored ⟨se, r, t1, pool, picks⟩ p = mkScored ⟨se, r, t2, pool, picks⟩ p := by
    intro p
    unfold mkScored
    rw [hscore, hexp]
  have hsl : scoredList ⟨se, r, t1, pool, picks⟩ = scoredList ⟨se, r, t2, pool, picks⟩ := by
    unfold scoredList
    apply List.filterMap_congr
    intro p _
    exact if_congr (h p.id) rfl (by rw [hmk])
  unfold rankPlayers
  rw [hsl]

/-- Claim C9 witness: two queries whose taken-id lists are different but
denote the same set produce identical output. -/
theorem C9_witness :
    rankPlayers ⟨defaultSettings, emptyRoster, ["a", "b"], C1pool, fun _ => 0⟩ =
      rankPlayers ⟨defaultSettings, emptyRoster, ["b", "a", "b"], C1pool, fun _ => 0⟩ :=
  C9_theorem defaultSettings emptyRoster _ _ C1pool (fun _ => 0)
    (by intro x; simp; tauto)

lemma ceilDivNat_mul_bounds (a b : ℕ) (hb : 1 ≤ b) :
    a ≤ ceilDivNat a b * b ∧ ceilDivNat a b * b < a + b := by
  have hmod := Nat.div_add_mod (a + b - 1) b
  have hmlt : (a + b - 1) % b < b := Nat.mod_lt _ hb
  unfold ceilDivNat
  rw [mul_comm]
  generalize hg : b * ((a + b - 1) / b) = bn at hmod ⊢
  omega

lemma ceilDivNat_cast (a b : ℕ) (hb : 1 ≤ b) :
    (ceilDivNat a b : ℤ) = ⌈(a : ℚ) / (b : ℚ)⌉ := by
  obtain ⟨k1, k2⟩ := ceilDivNat_mul_bounds a b hb
  have hbq : (0:ℚ) < (b:ℚ) := by exact_mod_cast hb
  symm
  rw [Int.ceil_eq_iff]
  constructor
  · rw [lt_div_iff₀ hbq]
    push_cast
    have hq2 : (ceilDivNat a b : ℚ) * b < a + b := by exact_mod_cast k2
    nlinarith
  · rw [div_le_iff₀ hbq]
    push_cast
    exact_mod_cast k1

/-- Everything of the final score except the round-priority factor and the
additive ADP help (the "pre-priority" part of the multiplicative stack). -/
def prePriorityScoreOf (I : ModelInputs) (p : Player) : ℚ :=
  scoreCoreOf I p *
    (1 + (18/100) * min 2 (needUnitsOf I.yourRoster p.position)) *
    starterBoostOf I.yourRoster p.position *
    benchDampOf I.yourRoster p.position *
    pivotBonusOf I.settings I.picksByPos p.position *
    byeAdjOf I.yourRoster p

lemma scoreOf_decompose (I : ModelInputs) (p : Player) :
    scoreOf I p = prePriorityScoreOf I p *
      priorityWeight p.position (currentRoundOf I.settings I.picksByPos) + adpHelpOf p := by
  unfold scoreOf prePriorityScoreOf
  ring

/-- Claim C4: the current round is `max(1, ceil((picksMade+1)/leagueSize))`;
the priority multiplier follows the fixed (position, round-bucket) table;
and with an empty draft log a QB/K/DST candidate whose pre-priority score is
positive and equal to an RB/WR candidate's, with equal ADP bonus, scores
strictly lower. -/
theorem C4_theorem (I : ModelInputs) (p q : Player) :
    (1 ≤ I.settings.leagueSize →
      (currentRoundOf I.settings I.picksByPos : ℤ) =
        max 1 ⌈((totalPicksMadeOf I.picksByPos : ℚ) + 1) / (I.settings.leagueSize : ℚ)⌉) ∧
    (∀ rd : ℕ,
      (rd = 1 → priorityWeight Position.RB rd = 125/100 ∧ priorityWeight Position.WR rd = 125/100 ∧
        priorityWeight Position.QB rd = 5/100 ∧ priorityWeight Position.TE rd = 9/10 ∧
        priorityWeight Position.K rd = 5/100 ∧ priorityWeight Position.DST rd = 5/100) ∧
      (rd = 2 → priorityWeight Position.RB rd = 12/10 ∧ priorityWeight Position.WR rd = 12/10 ∧
        priorityWeight Position.QB rd = 4/10 ∧ priorityWeight Position.TE rd = 95/100 ∧
        priorityWeight Position.K rd = 1/10 ∧ priorityWeight Position.DST rd = 1/10) ∧
      (3 ≤ rd ∧ rd ≤ 5 → priorityWeight Position.RB rd = 115/100 ∧
        priorityWeight Position.WR rd = 115/100 ∧ priorityWeight Position.QB rd = 9/10 ∧
        priorityWeight Position.TE rd = 1 ∧ priorityWeight Position.K rd = 2/10 ∧
        priorityWeight Position.DST rd = 2/10) ∧
      (6 ≤ rd ∧ rd ≤ 9 → priorityWeight Position.RB rd = 105/100 ∧
        priorityWeight Position.WR rd = 105/100 ∧ priorityWeight Position.QB rd = 1 ∧
        priorityWeight Position.TE rd = 1 ∧ priorityWeight Position.K rd = 4/10 ∧
        priorityWeight Position.DST rd = 4/10) ∧
      (10 ≤ rd → ∀ pos : Position, priorityWeight pos rd = 1)) ∧
    ((∀ pos : Position, I.picksByPos pos = 0) →
      (p.position = Position.QB ∨ p.position = Position.K ∨ p.position = Position.DST) →
      (q.position = Position.RB ∨ q.position = Position.WR) →
      prePriorityScoreOf I p = prePriorityScoreOf I q →
      0 < prePriorityScoreOf I p →
      adpHelpOf p = adpHelpOf q →
      scoreOf I p < scoreOf I q) := by
  refine ⟨?_, ?_, ?_⟩
  · intro hls
    unfold currentRoundOf
    rw [Nat.cast_max, ceilDivNat_cast _ _ hls]
    push_cast
    rfl
  · intro rd
    refine ⟨?_, ?_, ?_, ?_, ?_⟩
    · intro h
      subst h
      refine ⟨?_, ?_, ?_, ?_, ?_, ?_⟩ <;> simp [priorityWeight]
    · intro h
      subst h
      refine ⟨?_, ?_, ?_, ?_, ?_, ?_⟩ <;> simp [priorityWeight]
    · intro h
      refine ⟨?_, ?_, ?_, ?_, ?_, ?_⟩ <;>
        · unfold priorityWeight
          rw [if_neg (by omega), if_neg (by omega), if_pos (by exact h)]
          simp
    · intro h
      refine ⟨?_, ?_, ?_, ?_, ?_, ?_⟩ <;>
        · unfold priorityWeight
          rw [if_neg (by omega), if_neg (by omega), if_neg (by omega), if_pos (by exact h)]
          simp
    · intro h pos
      unfold priorityWeight
      rw [if_neg (by omega), if_neg (by omega), if_neg (by omega), if_neg (by omega)]
  · intro hz hp hq heq hpos hadp
    have hround : currentRoundOf I.settings I.picksByPos = 1 := by
      unfold currentRoundOf totalPicksMadeOf
      simp only [hz]
      rcases Nat.eq_zero_or_pos I.settings.leagueSize with h0 | h0
      · simp [ceilDivNat, h0]
      · have h1 : 0 + 0 + 0 + 0 + 0 + 0 + 1 + I.settings.leagueSize - 1 =
            I.settings.leagueSize := by omega
        unfold ceilDivNat
        rw [h1, Nat.div_self h0]
        simp
    have hwp : priorityWeight p.position 1 = 5/100 := by
      rcases hp with h | h | h <;> simp [priorityWeight, h]
    have hwq : priorityWeight q.position 1 = 125/100 := by
      rcases hq with h | h <;> simp [priorityWeight, h]
    rw [scoreOf_decompose, scoreOf_decompose, hround, hwp, hwq, heq, hadp]
    have hposq : 0 < prePriorityScoreOf I q := heq ▸ hpos
    linarith

/-- QB of the C4 witness, projected so its pre-priority score matches the RB's. -/
def C4qb : Player :=
  { id := "cq", name := "CQ", position := Position.QB, proj_pts := some (13328/10) }

/-- RB of the C4 witness. -/
def C4rb : Player := { id := "cr", name := "CR", position := Position.RB, proj_pts := some 1180 }

/-- Empty-draft query of the C4 witness. -/
def C4I : ModelInputs :=
  { settings := defaultSettings, yourRoster := emptyRoster, takenIds := [],
    playerPool := [C4qb, C4rb], picksByPos := fun _ => 0 }

/-- Claim C4 witness: on an empty draft log, a QB whose pre-priority score
equals an RB's (both positive, no ADP on either) receives a strictly lower
final score. -/
theorem C4_witness : scoreOf C4I C4qb < scoreOf C4I C4rb :=
  (C4_theorem C4I C4qb C4rb).2.2 (fun _ => rfl) (Or.inl rfl) (Or.inl rfl)
    (by norm_num +decide [prePriorityScoreOf, scoreCoreOf, baseOf, vorOf, replacementValue,
      positionGroup, projPts, qbAdjOf, needUnitsOf, startersRemaining, fractionalFlexOf,
      flexOpenOf, starterBoostOf, benchDampOf, pivotBonusOf, runBiasOf, totalTakenOf, byeAdjOf,
      scoringWeights, STARTERS_ONLY, ROSTER_TEMPLATE, slotList, starterSlotOf, FLEX_ELIGIBLE,
      evenShare, emptyRoster, defaultSettings, List.mergeSort_singleton, replacementRank,
      C4qb, C4rb, C4I, List.filter_cons, List.filter_nil])
    (by norm_num +decide [prePriorityScoreOf, scoreCoreOf, baseOf, vorOf, replacementValue,
      positionGroup, projPts, qbAdjOf, needUnitsOf, startersRemaining, fractionalFlexOf,
      flexOpenOf, starterBoostOf, benchDampOf, pivotBonusOf, runBiasOf, totalTakenOf, byeAdjOf,
      scoringWeights, STARTERS_ONLY, ROSTER_TEMPLATE, slotList, starterSlotOf, FLEX_ELIGIBLE,
      evenShare, emptyRoster, defaultSettings, List.mergeSort_singleton, replacementRank,
      C4qb, C4rb, C4I, List.filter_cons, List.filter_nil])
    rfl

/-- Modelled from the words of claim C5: first applicable of the starter
slot of the player's exact position (template capacities QB 1, RB 2, WR 2,
TE 1, DST 1, K 1), else FLEX for RB/WR/TE when FLEX holds fewer than 1
player, else BENCH.  Used to compare the claim's rule with the source's. -/
def claimSlotRule (p : Player) (r : Roster) : Slot :=
  if (slotList r (starterSlotOf p.position)).length < ROSTER_TEMPLATE (starterSlotOf p.position) then
    starterSlotOf p.position
  else if (p.position = Position.RB ∨ p.position = Position.WR ∨ p.position = Position.TE) ∧
      r.flex.length < 1 then Slot.FLEX
  else Slot.BENCH

/-- Claim C5: the projector's slot choice is exactly the claim's
first-applicable rule; each self pick is processed in draft order by
appending the resolved player to the chosen slot; and pushing into a slot
appends to that one list and leaves every other slot list unchanged, so an
earlier assignment is never revised. -/
theorem C5_theorem :
    (∀ (p : Player) (r : Roster), findSlotForPlayer p r = claimSlotRule p r) ∧
    (∀ (players : List Player) (yourIds : List String) (i : String) (p : Player),
      players.find? (fun q => q.id == i) = some p →
      yourRosterOf players (yourIds ++ [i]) =
        pushSlot (yourRosterOf players yourIds)
          (findSlotForPlayer p (yourRosterOf players yourIds)) p) ∧
    (∀ (r : Roster) (t : Slot) (p : Player) (s : Slot),
      slotList (pushSlot r t p) s = if s = t then slotList r s ++ [p] else slotList r s) := by
  refine ⟨?_, ?_, ?_⟩
  · intro p r
    cases hpos : p.position <;>
      simp [findSlotForPlayer, claimSlotRule, starterSlotOf, slotList, ROSTER_TEMPLATE,
        FLEX_ELIGIBLE, hpos]
  · intro players yourIds i p hfind
    unfold yourRosterOf
    have hres : resolvePicks players (yourIds ++ [i]) = resolvePicks players yourIds ++ [p] := by
      unfold resolvePicks
      rw [List.filterMap_append]
      simp [List.filterMap_cons, hfind]
    rw [hres, List.foldl_append]
    rfl
  · intro r t p s
    cases t <;> cases s <;> simp [pushSlot, slotList]

/-- Claim C5 witness: appending the pick of a resolvable id extends the
projected roster by one push into the slot the rule chooses. -/
theorem C5_witness :
    yourRosterOf [C1q1] ["q1"] =
      pushSlot (yourRosterOf [C1q1] [])
        (findSlotForPlayer C1q1 (yourRosterOf [C1q1] [])) C1q1 :=
  C5_theorem.2.1 [C1q1] [] "q1" C1q1 (by simp [C1q1])

lemma resolvePicks_length (players : List Player) (yourIds : List String)
    (hres : ∀ i ∈ yourIds, (players.find? (fun p => p.id == i)).isSome = true) :
    (resolvePicks players yourIds).length = yourIds.length := by
  induction yourIds with
  | nil => rfl
  | cons i tl ih =>
    obtain ⟨p, hp⟩ := Option.isSome_iff_exists.mp (hres i (List.mem_cons_self i tl))
    unfold resolvePicks
    rw [List.filterMap_cons, hp]
    have := ih (fun j hj => hres j (List.mem_cons_of_mem _ hj))
    unfold resolvePicks at this
    simp [this]

lemma resolvePicks_nodup (players : List Player) (yourIds : List String)
    (hnd : yourIds.Nodup) : (resolvePicks players yourIds).Nodup := by
  unfold resolvePicks
  refine List.Nodup.filterMap ?_ hnd
  intro a a' b hb hb'
  have h1 : b.id = a := by simpa using List.find?_some (Option.mem_def.mp hb)
  have h2 : b.id = a' := by simpa using List.find?_some (Option.mem_def.mp hb')
  rw [← h1, h2]

lemma allPlayers_pushSlot_perm (r : Roster) (s : Slot) (p : Player) :
    (allPlayers (pushSlot r s p)).Perm (allPlayers r ++ [p]) := by
  refine List.perm_iff_count.mpr fun a => ?_
  cases s <;> simp [allPlayers, pushSlot, List.count_append, List.count_cons] <;> omega

lemma allPlayers_foldl_perm (l : List Player) :
    ∀ R : Roster, (allPlayers (l.foldl allocStep R)).Perm (allPlayers R ++ l) := by
  induction l with
  | nil => intro R; simp
  | cons p tl ih =>
    intro R
    rw [List.foldl_cons]
    refine (ih (allocStep R p)).trans ?_
    have h1 : (allPlayers (allocStep R p) ++ tl).Perm ((allPlayers R ++ [p]) ++ tl) :=
      (allPlayers_pushSlot_perm R (findSlotForPlayer p R) p).append_right tl
    refine h1.trans ?_
    rw [List.append_assoc]
    exact List.Perm.refl _

lemma uniqueSlot_of_count (R : Roster) (p : Player)
    (hsum : List.count p R.qb + List.count p R.rb + List.count p R.wr + List.count p R.te +
      List.count p R.flex + List.count p R.dst + List.count p R.k + List.count p R.bench +
      List.count p R.ir = 1)
    (s : Slot) (hs : p ∈ slotList R s) : ∀ y : Slot, p ∈ slotList R y → y = s := by
  intro y hy
  have h1 : 1 ≤ List.count p (slotList R s) := List.one_le_count_iff.mpr hs
  have h2 : 1 ≤ List.count p (slotList R y) := List.one_le_count_iff.mpr hy
  cases s <;> cases y <;> first
    | rfl
    | (exfalso; simp only [slotList] at h1 h2; omega)

/-- Claim C6: when every self-owned pick id resolves in the catalog (and pick
ids are distinct, the Draft Log invariant), the projected roster holds
exactly the resolved players — the slot category sizes sum to the number of
self-owned picks, and each picked player sits in exactly one slot category. -/
theorem C6_theorem (players : List Player) (yourIds : List String)
    (hres : ∀ i ∈ yourIds, (players.find? (fun p => p.id == i)).isSome = true)
    (hnd : yourIds.Nodup) :
    totalRosterCount (yourRosterOf players yourIds) = yourIds.length ∧
    ∀ p ∈ resolvePicks players yourIds,
      ∃! s : Slot, p ∈ slotList (yourRosterOf players yourIds) s := by
  have hperm : (allPlayers (yourRosterOf players yourIds)).Perm
      (resolvePicks players yourIds) := by
    unfold yourRosterOf
    have := allPlayers_foldl_perm (resolvePicks players yourIds) emptyRoster
    simpa [allPlayers, emptyRoster] using this
  constructor
  · unfold totalRosterCount
    rw [hperm.length_eq]
    exact resolvePicks_length players yourIds hres
  · intro p hp
    have hnd' := resolvePicks_nodup players yourIds hnd
    have hcount : List.count p (allPlayers (yourRosterOf players yourIds)) = 1 := by
      rw [List.perm_iff_count.mp hperm p]
      exact List.count_eq_one_of_mem hnd' hp
    have hsum : List.count p (yourRosterOf players yourIds).qb +
        List.count p (yourRosterOf players yourIds).rb +
        List.count p (yourRosterOf players yourIds).wr +
        List.count p (yourRosterOf players yourIds).te +
        List.count p (yourRosterOf players yourIds).flex +
        List.count p (yourRosterOf players yourIds).dst +
        List.count p (yourRosterOf players yourIds).k +
        List.count p (yourRosterOf players yourIds).bench +
        List.count p (yourRosterOf players yourIds).ir = 1 := by
      have h := hcount
      simp only [allPlayers, List.count_append] at h
      omega
    have hmem : p ∈ allPlayers (yourRosterOf players yourIds) := by
      rw [hperm.mem_iff]
      exact hp
    simp only [allPlayers, List.mem_append] at hmem
    rcases hmem with ((((((((h | h) | h) | h) | h) | h) | h) | h) | h)
    · exact ⟨Slot.QB, h, uniqueSlot_of_count _ p hsum Slot.QB h⟩
    · exact ⟨Slot.RB, h, uniqueSlot_of_count _ p hsum Slot.RB h⟩
    · exact ⟨Slot.WR, h, uniqueSlot_of_count _ p hsum Slot.WR h⟩
    · exact ⟨Slot.TE, h, uniqueSlot_of_count _ p hsum Slot.TE h⟩
    · exact ⟨Slot.FLEX, h, uniqueSlot_of_count _ p hsum Slot.FLEX h⟩
    · exact ⟨Slot.DST, h, uniqueSlot_of_count _ p hsum Slot.DST h⟩
    · exact ⟨Slot.K, h, uniqueSlot_of_count _ p hsum Slot.K h⟩
    · exact ⟨Slot.BENCH, h, uniqueSlot_of_count _ p hsum Slot.BENCH h⟩
    · exact ⟨Slot.IR, h, uniqueSlot_of_count _ p hsum Slot.IR h⟩

/-- Claim C6 witness: a two-pick log over a two-player catalog — the slot
sizes sum to 2 and each picked player sits in exactly one slot category. -/
theorem C6_witness :
    totalRosterCount (yourRosterOf C1pool ["q1", "q2"]) = 2 ∧
      ∀ p ∈ resolvePicks C1pool ["q1", "q2"],
        ∃! s : Slot, p ∈ slotList (yourRosterOf C1pool ["q1", "q2"]) s := by
  have h := C6_theorem C1pool ["q1", "q2"]
    (by intro i hi; fin_cases hi <;> simp [C1pool, C1q1, C1q2])
    (by simp)
  simpa using h

lemma upcoming1Go_eq (ls slot lastPick lookahead : ℕ) :
    ∀ (n pickIndex collected : ℕ), lastPick + 1 - pickIndex = n →
      upcoming1Go ls slot lastPick lookahead pickIndex collected =
        ((List.range' pickIndex n).filter (fun i => drafterOf ls i == slot)).take
          (lookahead - collected) := by
  intro n
  induction n with
  | zero =>
    intro pi c h
    rw [upcoming1Go, dif_neg (by omega)]
    simp
  | succ m ih =>
    intro pi c h
    rw [upcoming1Go]
    by_cases hc : c < lookahead
    · rw [dif_pos ⟨hc, by omega⟩, List.range'_succ]
      by_cases hd : drafterOf ls pi = slot
      · rw [if_pos hd, List.filter_cons_of_pos (by simp [hd])]
        have htake : lookahead - c = (lookahead - (c+1)) + 1 := by omega
        rw [htake, List.take_succ_cons, ih (pi+1) (c+1) (by omega)]
      · rw [if_neg hd, List.filter_cons_of_neg (by simp [hd])]
        exact ih (pi+1) c (by omega)
    · rw [dif_neg (by omega)]
      have h0 : lookahead - c = 0 := by omega
      rw [h0]
      simp

lemma upcoming2Go_eq (ls slot startPick lastPick rounds count : ℕ) :
    ∀ (n r collected : ℕ), rounds + 1 - r = n →
      upcoming2Go ls slot startPick lastPick rounds count r collected =
        (((List.range' r n).map (myPickOfRound ls slot)).filter
          (fun i => decide (startPick ≤ i) && decide (i ≤ lastPick))).take
            (max 1 (count - collected)) := by
  intro n
  induction n with
  | zero =>
    intro r c h
    rw [upcoming2Go, dif_neg (by omega)]
    simp
  | succ m ih =>
    intro r c h
    rw [upcoming2Go, dif_pos (by omega : r ≤ rounds), List.range'_succ, List.map_cons]
    by_cases hw : startPick ≤ myPickOfRound ls slot r ∧ myPickOfRound ls slot r ≤ lastPick
    · rw [if_pos hw, List.filter_cons_of_pos (by simp [hw.1, hw.2])]
      by_cases hcnt : count ≤ c + 1
      · rw [if_pos hcnt]
        have h1 : max 1 (count - c) = 0 + 1 := by omega
        rw [h1, List.take_succ_cons]
        simp
      · rw [if_neg hcnt]
        have h2 : max 1 (count - c) = (max 1 (count - (c+1))) + 1 := by omega
        rw [h2, List.take_succ_cons, ih (r+1) (c+1) (by omega)]
    · rw [if_neg hw, List.filter_cons_of_neg (by simpa using hw)]
      exact ih (r+1) c (by omega)

lemma myPickOfRound_lower (ls slot r : ℕ) : (r - 1) * ls + 1 ≤ myPickOfRound ls slot r := by
  simp only [myPickOfRound]
  split <;> omega

lemma myPickOfRound_upper (ls slot r : ℕ) (h1 : 1 ≤ slot) (h2 : slot ≤ ls) (hr : 1 ≤ r) :
    myPickOfRound ls slot r ≤ r * ls := by
  have hmul : r * ls = (r - 1) * ls + ls := by
    cases r with
    | zero => omega
    | succ k => simp [Nat.succ_sub_one, Nat.succ_mul]
  simp only [myPickOfRound]
  split <;> omega

lemma filter_eq_singleton {l : List ℕ} {p : ℕ → Bool} {a : ℕ}
    (hnd : l.Nodup) (ha : a ∈ l) (hiff : ∀ i ∈ l, p i = true ↔ i = a) : l.filter p = [a] := by
  induction l with
  | nil => cases ha
  | cons x xs ih =>
    obtain ⟨hx_nmem, hxs_nd⟩ := List.nodup_cons.mp hnd
    rcases List.mem_cons.mp ha with rfl | hx
    · rw [List.filter_cons_of_pos ((hiff _ (List.mem_cons_self _ _)).mpr rfl)]
      have hnil : xs.filter p = [] := by
        rw [List.filter_eq_nil_iff]
        intro i hi hpi
        have := (hiff i (List.mem_cons_of_mem _ hi)).mp hpi
        exact hx_nmem (this ▸ hi)
      rw [hnil]
    · have hpx : ¬ p x = true := by
        intro hpx
        have hxa := (hiff x (List.mem_cons_self x xs)).mp hpx
        exact hx_nmem (hxa ▸ hx)
      rw [List.filter_cons_of_neg hpx]
      exact ih hxs_nd hx (fun i hi => hiff i (List.mem_cons_of_mem _ hi))

lemma drafter_round_char (ls slot r i : ℕ) (hls : 1 ≤ ls) (hs1 : 1 ≤ slot) (hs2 : slot ≤ ls)
    (hr : 1 ≤ r) (hlo : (r - 1) * ls + 1 ≤ i) (hhi : i ≤ (r - 1) * ls + ls) :
    (drafterOf ls i = slot ↔ i = myPickOfRound ls slot r) := by
  have hmul : r * ls = (r - 1) * ls + ls := by
    cases r with
    | zero => omega
    | succ k => simp [Nat.succ_sub_one, Nat.succ_mul]
  have hmul2 : (r + 1) * ls = r * ls + ls := by rw [Nat.succ_mul]
  have hceil : ceilDivNat i ls = r := by
    unfold ceilDivNat
    apply Nat.div_eq_of_lt_le <;> omega
  have hd : i - 1 - (r - 1) * ls < ls := by omega
  have hmod : (i - 1) % ls = i - 1 - (r - 1) * ls := by
    have hi' : i - 1 = (r - 1) * ls + (i - 1 - (r - 1) * ls) := by omega
    calc (i - 1) % ls = ((r - 1) * ls + (i - 1 - (r - 1) * ls)) % ls := by rw [← hi']
      _ = (ls * (r - 1) + (i - 1 - (r - 1) * ls)) % ls := by rw [mul_comm (r - 1) ls]
      _ = (i - 1 - (r - 1) * ls) % ls := by rw [Nat.mul_add_mod]
      _ = i - 1 - (r - 1) * ls := Nat.mod_eq_of_lt hd
  simp only [drafterOf, myPickOfRound, hceil, hmod]
  by_cases hpar : r % 2 = 1
  · rw [if_pos hpar, if_pos hpar]
    omega
  · rw [if_neg hpar, if_neg hpar]
    omega

lemma filter_mine_round (ls slot r : ℕ) (hls : 1 ≤ ls) (hs1 : 1 ≤ slot) (hs2 : slot ≤ ls)
    (hr : 1 ≤ r) :
    (List.range' ((r - 1) * ls + 1) ls).filter (fun i => drafterOf ls i == slot) =
      [myPickOfRound ls slot r] := by
  have hmul : r * ls = (r - 1) * ls + ls := by
    cases r with
    | zero => omega
    | succ k => simp [Nat.succ_sub_one, Nat.succ_mul]
  apply filter_eq_singleton (List.nodup_range' _ _)
  · rw [List.mem_range'_1]
    refine ⟨myPickOfRound_lower ls slot r, ?_⟩
    have := myPickOfRound_upper ls slot r hs1 hs2 hr
    omega
  · intro i hi
    rw [List.mem_range'_1] at hi
    simp only [beq_iff_eq]
    exact drafter_round_char ls slot r i hls hs1 hs2 hr hi.1 (by omega)

lemma filter_mine_all (ls slot : ℕ) (hls : 1 ≤ ls) (hs1 : 1 ≤ slot) (hs2 : slot ≤ ls) :
    ∀ R : ℕ, (List.range' 1 (R * ls)).filter (fun i => drafterOf ls i == slot) =
      (List.range' 1 R).map (myPickOfRound ls slot) := by
  intro R
  induction R with
  | zero => simp
  | succ m ih =>
    have hsplit : List.range' 1 ((m + 1) * ls) =
        List.range' 1 (m * ls) ++ List.range' (m * ls + 1) ls := by
      have h := List.range'_append 1 (m * ls) ls 1
      simp only [one_mul] at h
      rw [Nat.add_comm 1 (m * ls)] at h
      rw [show (m + 1) * ls = ls + m * ls from by rw [Nat.succ_mul]; omega]
      exact h.symm
    have hr2 : List.range' 1 (m + 1) = List.range' 1 m ++ [m + 1] := by
      have h := List.range'_append 1 m 1 1
      simp only [one_mul, List.range'_one] at h
      rw [Nat.add_comm 1 m] at h
      exact h.symm
    rw [hsplit, List.filter_append, ih]
    have hround := filter_mine_round ls slot (m + 1) hls hs1 hs2 (by omega)
    have hm1 : (m + 1 - 1) * ls + 1 = m * ls + 1 := by simp
    rw [hm1] at hround
    rw [hround, hr2, List.map_append]
    simp

lemma upcoming_lists_eq (ls slot rounds sp : ℕ)
    (hls : 1 ≤ ls) (hs1 : 1 ≤ slot) (hs2 : slot ≤ ls) (hsp : 1 ≤ sp) :
    (List.range' sp (rounds * ls + 1 - sp)).filter (fun i => drafterOf ls i == slot) =
      ((List.range' (ceilDivNat sp ls) (rounds + 1 - ceilDivNat sp ls)).map
        (myPickOfRound ls slot)).filter
          (fun i => decide (sp ≤ i) && decide (i ≤ rounds * ls)) := by
  have hb := ceilDivNat_mul_bounds sp ls hls
  by_cases hover : rounds * ls < sp
  · have h1 : rounds * ls + 1 - sp = 0 := by omega
    have hr0 : rounds + 1 ≤ ceilDivNat sp ls := by
      by_contra hcon
      push_neg at hcon
      have hle : ceilDivNat sp ls * ls ≤ rounds * ls := Nat.mul_le_mul_right _ (by omega)
      omega
    have h2 : rounds + 1 - ceilDivNat sp ls = 0 := by omega
    rw [h1, h2]
    simp
  · push_neg at hover
    set r0 := ceilDivNat sp ls with hr0def
    have hr0_ge1 : 1 ≤ r0 := by
      by_contra h
      push_neg at h
      have h0 : r0 = 0 := by omega
      rw [h0] at hb
      simp at hb
      omega
    have hr0_le : r0 ≤ rounds := by
      by_contra h
      push_neg at h
      have hle : (rounds + 1) * ls ≤ r0 * ls := Nat.mul_le_mul_right _ (by omega)
      rw [Nat.succ_mul] at hle
      omega
    -- Step A: the window filter on the round list reduces to (sp ≤ ·)
    have hwin : ((List.range' r0 (rounds + 1 - r0)).map (myPickOfRound ls slot)).filter
          (fun i => decide (sp ≤ i) && decide (i ≤ rounds * ls)) =
        ((List.range' r0 (rounds + 1 - r0)).map (myPickOfRound ls slot)).filter
          (fun i => decide (sp ≤ i)) := by
      apply List.filter_congr
      intro x hx
      obtain ⟨r, hr, rfl⟩ := List.mem_map.mp hx
      rw [List.mem_range'_1] at hr
      have hup : myPickOfRound ls slot r ≤ r * ls :=
        myPickOfRound_upper ls slot r hs1 hs2 (by omega)
      have hrle : r ≤ rounds := by omega
      have hple : myPickOfRound ls slot r ≤ rounds * ls := by
        have := Nat.mul_le_mul_right ls hrle
        omega
      simp [hple]
    rw [hwin]
    -- Step B: left side equals (sp ≤ ·) filtered full-draft mine list
    have hsplitL : List.range' 1 (rounds * ls) =
        List.range' 1 (sp - 1) ++ List.range' sp (rounds * ls + 1 - sp) := by
      have h := List.range'_append 1 (sp - 1) (rounds * ls + 1 - sp) 1
      simp only [one_mul] at h
      rw [show 1 + (sp - 1) = sp from by omega] at h
      rw [show rounds * ls + 1 - sp + (sp - 1) = rounds * ls from by omega] at h
      exact h.symm
    have hLfull : (List.range' 1 (rounds * ls)).filter (fun i => drafterOf ls i == slot) =
        (List.range' 1 rounds).map (myPickOfRound ls slot) :=
      filter_mine_all ls slot hls hs1 hs2 rounds
    have hL : ((List.range' 1 rounds).map (myPickOfRound ls slot)).filter
          (fun i => decide (sp ≤ i)) =
        (List.range' sp (rounds * ls + 1 - sp)).filter (fun i => drafterOf ls i == slot) := by
      rw [← hLfull, hsplitL, List.filter_append, List.filter_append]
      have hnil : ((List.range' 1 (sp - 1)).filter (fun i => drafterOf ls i == slot)).filter
          (fun i => decide (sp ≤ i)) = [] := by
        rw [List.filter_eq_nil_iff]
        intro x hx
        have hx1 := (List.mem_filter.mp hx).1
        rw [List.mem_range'_1] at hx1
        simp
        omega
      have hself : (((List.range' sp (rounds * ls + 1 - sp)).filter
            (fun i => drafterOf ls i == slot)).filter (fun i => decide (sp ≤ i))) =
          (List.range' sp (rounds * ls + 1 - sp)).filter (fun i => drafterOf ls i == slot) := by
        rw [List.filter_eq_self]
        intro x hx
        have hx1 := (List.mem_filter.mp hx).1
        rw [List.mem_range'_1] at hx1
        simp
        omega
      rw [hnil, hself]
      simp
    rw [← hL]
    -- Step C: drop rounds before r0 from the round list
    have hsplitR : List.range' 1 rounds =
        List.range' 1 (r0 - 1) ++ List.range' r0 (rounds + 1 - r0) := by
      have h := List.range'_append 1 (r0 - 1) (rounds + 1 - r0) 1
      simp only [one_mul] at h
      rw [show 1 + (r0 - 1) = r0 from by omega] at h
      rw [show rounds + 1 - r0 + (r0 - 1) = rounds from by omega] at h
      exact h.symm
    rw [hsplitR, List.map_append, List.filter_append]
    have hnilR : ((List.range' 1 (r0 - 1)).map (myPickOfRound ls slot)).filter
        (fun i => decide (sp ≤ i)) = [] := by
      rw [List.filter_eq_nil_iff]
      intro x hx
      obtain ⟨r, hr, rfl⟩ := List.mem_map.mp hx
      rw [List.mem_range'_1] at hr
      have hup : myPickOfRound ls slot r ≤ r * ls :=
        myPickOfRound_upper ls slot r hs1 hs2 (by omega)
      have hrle : r ≤ r0 - 1 := by omega
      have h1 : r * ls ≤ (r0 - 1) * ls := Nat.mul_le_mul_right _ hrle
      have h2 : (r0 - 1) * ls < sp := by
        have h4 : r0 - 1 + 1 = r0 := by omega
        have h3 : r0 * ls = (r0 - 1) * ls + ls := by
          calc r0 * ls = (r0 - 1 + 1) * ls := by rw [h4]
            _ = (r0 - 1) * ls + ls := by rw [Nat.succ_mul]
        omega
      simp
      omega
    rw [hnilR]
    simp

/-- Claim C10 (amended): the pick-by-pick scanning and the round-by-round
`getUpcomingPickIndexes` agree for every leagueSize ≥ 1,
1 ≤ draftSlot ≤ leagueSize, any totalPicksMade, and any requested count
**of at least 1** (at count 0 the round-by-round version still returns one
pick, because it checks the length only after pushing). -/
theorem C10_theorem (s : DraftSettings) (tpm count : ℕ)
    (hls : 1 ≤ s.leagueSize) (hs1 : 1 ≤ s.draftSlot) (hs2 : s.draftSlot ≤ s.leagueSize)
    (hcnt : 1 ≤ count) :
    getUpcomingPickIndexesScan s tpm count = getUpcomingPickIndexesRounds s tpm count := by
  unfold getUpcomingPickIndexesScan getUpcomingPickIndexesRounds
  rw [upcoming1Go_eq s.leagueSize s.draftSlot (s.rounds * s.leagueSize) count
    (s.rounds * s.leagueSize + 1 - (tpm + 1)) (tpm + 1) 0 rfl]
  rw [upcoming2Go_eq s.leagueSize s.draftSlot (tpm + 1) (s.rounds * s.leagueSize) s.rounds count
    (s.rounds + 1 - ceilDivNat (tpm + 1) s.leagueSize) (ceilDivNat (tpm + 1) s.leagueSize) 0 rfl]
  rw [Nat.sub_zero, show max 1 count = count from by omega]
  rw [upcoming_lists_eq s.leagueSize s.draftSlot s.rounds (tpm + 1) hls hs1 hs2 (by omega)]

/-- One-drafter, one-round league of the C10 counterexample. -/
def C10settings : DraftSettings :=
  { leagueSize := 1, draftSlot := 1, rounds := 1, scoring := Scoring.ppr,
    teamQBInfluence := 0, runSensitivity := 0 }

/-- Claim C10 counterexample: with requested count 0 the scanning version
returns no picks, while the round-by-round version returns the next pick —
it pushes before testing `upcoming.length >= count`. -/
theorem C10_counterexample :
    getUpcomingPickIndexesScan C10settings 0 0 = [] ∧
      getUpcomingPickIndexesRounds C10settings 0 0 = [1] := by
  constructor
  · unfold getUpcomingPickIndexesScan C10settings
    rw [upcoming1Go, dif_neg (by omega)]
  · unfold getUpcomingPickIndexesRounds C10settings
    norm_num [ceilDivNat]
    rw [upcoming2Go, dif_pos (by norm_num)]
    norm_num [myPickOfRound]

/-- Claim C10 witness: both versions agree on the default settings with an
empty log and 12 requested picks. -/
theorem C10_witness :
    getUpcomingPickIndexesScan defaultSettings 0 12 = getUpcomingPickIndexesRounds defaultSettings 0 12 :=
  C10_theorem defaultSettings 0 12 (by norm_num [defaultSettings])
    (by norm_num [defaultSettings]) (by norm_num [defaultSettings]) (by norm_num)
